import Mathlib

/-!
Verification of the battle-card document-export engine
(`src/lib/exportProfessionalPDF.ts`) and its surrounding export/generation
plumbing (`ExportStep`, `GenerateStep`), as a shallow embedding in Lean.

Conventions of the embedding:
* jsPDF lengths are in millimetres; all coordinates and heights are modelled
  as rationals (`ℚ`), which represent the exact values the source computes.
* The host text-measurement primitive `pdf.splitTextToSize(text, maxWidth)`
  is abstracted as a parameter `SplitFn : String → ℚ → List String`
  (the wrapped lines of `text` at width `maxWidth`).  The host's dependence
  on ambient font state is outside the repository and is abstracted away;
  only the resulting line lists matter to the layout.
* Drawing is modelled as an append-only trace of drawing operations (`Op`),
  each tagged with the page it is drawn on (the current page at the time of
  the call, or the explicit page selected by `setPage` in the footer pass).
-/

namespace Battlecard

/-- A4 page width in mm (`pdf.internal.pageSize.getWidth()` for format 'a4'). -/
def pageWidth : ℚ := 210

/-- A4 page height in mm (`pdf.internal.pageSize.getHeight()` for format 'a4'). -/
def pageHeight : ℚ := 297

/-- `const margin = 15`. -/
def margin : ℚ := 15

/-- `const contentWidth = pageWidth - (margin * 2)`. -/
def contentWidth : ℚ := pageWidth - (margin * 2)

/-- `const colWidth = (contentWidth - 10) / 2` — 2-column width with 10mm gap. -/
def colWidth : ℚ := (contentWidth - 10) / 2

/-- A single drawing operation recorded on the page trace.  The constructors
mirror the jsPDF primitives the export calls: `rect`, `roundedRect`, `line`,
`text` (with the string or array-of-lines argument normalised to a list of
lines), and `addImage`.  Styling calls (colors, fonts) carry no geometry and
are not recorded. -/
inductive Op where
  | rect (page : ℕ) (x y w h : ℚ)
  | rrect (page : ℕ) (x y w h : ℚ)
  | line (page : ℕ) (x1 y1 x2 y2 : ℚ)
  | text (page : ℕ) (lines : List String) (x y : ℚ)
  | image (page : ℕ) (x y w h : ℚ)
deriving Repr, DecidableEq

/-- The mutable export state: the number of pages produced so far (1-based;
jsPDF starts with one page), the cursor offset `y`, and the trace of drawing
operations. -/
structure PdfState where
  pages : ℕ
  y : ℚ
  ops : List Op
deriving Repr, DecidableEq

/-- Append one drawing operation to the trace. -/
def emit (op : Op) (st : PdfState) : PdfState :=
  { st with ops := st.ops ++ [op] }

/-- `y += h` (the cursor advances; nothing is drawn). -/
def advanceY (h : ℚ) (st : PdfState) : PdfState :=
  { st with y := st.y + h }

/--
```
const checkPageBreak = (neededHeight: number) => {
  if (y + neededHeight > pageHeight - margin) {
    pdf.addPage();
    y = margin;
    return true;
  }
  return false;
};
```
-/
def checkPageBreak (st : PdfState) (neededHeight : ℚ) : PdfState × Bool :=
  if st.y + neededHeight > pageHeight - margin then
    ({ st with pages := st.pages + 1, y := margin }, true)
  else
    (st, false)

/-- The abstract text-measurement adapter: `split text maxWidth` is the list
of wrapped lines `pdf.splitTextToSize(text, maxWidth)` returns. -/
def SplitFn : Type := String → ℚ → List String

/-- A concrete measurement adapter in which every string fits on a single
line (valid for short strings); used for concrete evaluations. -/
def splitOne : SplitFn := fun s _ => [s]

/-- C2: `checkPageBreak(h)` breaks exactly when `y + h > pageHeight - margin`;
on a break it appends exactly one page and resets the offset to the margin,
leaving the trace untouched; otherwise it leaves the state unchanged; and its
boolean result is `true` iff a break occurred. -/
theorem checkPageBreak_spec (st : PdfState) (h : ℚ) :
    ((checkPageBreak st h).2 = true ↔ st.y + h > pageHeight - margin)
    ∧ (checkPageBreak st h).1 =
        (if st.y + h > pageHeight - margin then
          { st with pages := st.pages + 1, y := margin }
        else st) := by
  by_cases hc : st.y + h > pageHeight - margin <;>
    simp [checkPageBreak, hc]

/-- C10: one call to `checkPageBreak(h)` appends at most one page, and on a
break the offset becomes exactly the margin regardless of `h`; consequently
for any `h > pageHeight − 2·margin` (and any call-site state, all of which
have `y ≥ margin`) the post-call state still has `y + h > pageHeight − margin`:
the block drawn afterwards overflows the page bottom. -/
theorem checkPageBreak_single_page_no_fit (st : PdfState) (h : ℚ)
    (hy : margin ≤ st.y) (hbig : h > pageHeight - 2 * margin) :
    (checkPageBreak st h).1.pages ≤ st.pages + 1
    ∧ ((checkPageBreak st h).2 = true → (checkPageBreak st h).1.y = margin)
    ∧ (checkPageBreak st h).1.y + h > pageHeight - margin := by
  have hbreak : st.y + h > pageHeight - margin := by
    have : margin + h > pageHeight - margin := by
      have := hbig
      rw [pageHeight, margin] at *
      linarith
    calc pageHeight - margin < margin + h := this
      _ ≤ st.y + h := by linarith
  refine ⟨?_, ?_, ?_⟩
  · simp [checkPageBreak, hbreak]
  · intro _; simp [checkPageBreak, hbreak]
  · simp only [checkPageBreak, hbreak, if_pos]
    have := hbig
    rw [pageHeight, margin] at *
    linarith

/-- Witness for `checkPageBreak_single_page_no_fit` at a concrete state:
page 1, offset 15, needed height 268. -/
theorem checkPageBreak_single_page_no_fit_witness :
    (margin ≤ (15 : ℚ) ∧ (268 : ℚ) > pageHeight - 2 * margin)
    ∧ ((checkPageBreak ⟨1, 15, []⟩ 268).1.pages ≤ 2
        ∧ ((checkPageBreak ⟨1, 15, []⟩ 268).2 = true →
            (checkPageBreak ⟨1, 15, []⟩ 268).1.y = margin)
        ∧ (checkPageBreak ⟨1, 15, []⟩ 268).1.y + 268 > pageHeight - margin) :=
  ⟨⟨by norm_num [margin], by norm_num [pageHeight, margin]⟩,
    checkPageBreak_single_page_no_fit ⟨1, 15, []⟩ 268
      (by norm_num [margin]) (by norm_num [pageHeight, margin])⟩

/-- One Q/A pair of the objections table (`{ objection, response }`). -/
structure Objection where
  objection : String
  response : String
deriving Repr, DecidableEq

/-- One testimonial (`{ company, quote }`). -/
structure Testimonial where
  company : String
  quote : String
deriving Repr, DecidableEq

/-- The battle-card record consumed by the export engine and mirrored by the
JSON export (interface `BattleCardContent` in `src/services/aws.ts`; the PDF
export's parameter is annotated `BattleCardData` but accesses exactly these
fields). -/
structure BattleCardContent where
  id : String
  title : String
  overview : String
  differentiators : List String
  strengths : List String
  weaknesses : List String
  pricing : String
  objections : List Objection
  questions : List String
  testimonials : List Testimonial
  generatedAt : String
deriving Repr, DecidableEq

/--
```
const drawSectionHeader = (title: string, subTitle?: string) => {
  checkPageBreak(25);
  y += 5;
  pdf.rect(margin, y, 4, 8, 'F');
  pdf.text(title.toUpperCase(), margin + 8, y + 6);
  if (subTitle) { pdf.text(subTitle, margin + 8, y + 12); y += 5; }
  y += 12;
};
```
-/
def drawSectionHeader (title : String) (subTitle : Option String)
    (st : PdfState) : PdfState :=
  let st := (checkPageBreak st 25).1
  let st := advanceY 5 st
  let st := emit (.rect st.pages margin st.y 4 8) st
  let st := emit (.text st.pages [title.toUpper] (margin + 8) (st.y + 6)) st
  let st := match subTitle with
    | some sub =>
        advanceY 5 (emit (.text st.pages [sub] (margin + 8) (st.y + 12)) st)
    | none => st
  advanceY 12 st

/-- Content passed to `drawCard`: either a prose string or a string array
(the `string | string[]` union of the source). -/
def CardContent : Type := String ⊕ List String

/--
```
const drawCard = (x, yPos, w, title, content, colorAccent, isList) => {
  const contentLines = Array.isArray(content)
    ? content.map(c => `•  ${c}`)
    : pdf.splitTextToSize(content, w - 10);
  const finalLines = Array.isArray(contentLines) && isList
    ? pdf.splitTextToSize(contentLines.join('\n\n'), w - 10)
    : contentLines;
  const cardHeight = (finalLines.length * 5) + 20;
  pdf.roundedRect(x, yPos, w, cardHeight, 1, 1, 'FD');
  pdf.line(x, yPos, x + w, yPos);
  pdf.text(title, x + 5, yPos + 8);
  pdf.text(finalLines, x + 5, yPos + 16);
  return cardHeight;
};
```
(`contentLines` is always an array at runtime, so `finalLines` re-wraps the
joined bullets exactly when `isList` is set.)  Returns the new state and the
returned `cardHeight`. -/
def drawCard (split : SplitFn) (x yPos w : ℚ) (title : String)
    (content : CardContent) (isList : Bool) (st : PdfState) :
    PdfState × ℚ :=
  let contentLines : List String :=
    match content with
    | .inr items => items.map (fun c => "•  " ++ c)
    | .inl s => split s (w - 10)
  let finalLines : List String :=
    if isList then split (String.intercalate "\n\n" contentLines) (w - 10)
    else contentLines
  let cardHeight : ℚ := (finalLines.length : ℚ) * 5 + 20
  let st := emit (.rrect st.pages x yPos w cardHeight) st
  let st := emit (.line st.pages x yPos (x + w) yPos) st
  let st := emit (.text st.pages [title] (x + 5) (yPos + 8)) st
  let st := emit (.text st.pages finalLines (x + 5) (yPos + 16)) st
  (st, cardHeight)

/-- `const diffGap = 5`. -/
def diffGap : ℚ := 5

/-- `const diffCols = 3`. -/
def diffCols : ℕ := 3

/-- `const diffCardWidth = (contentWidth - (diffGap * (diffCols - 1))) / diffCols`. -/
def diffCardWidth : ℚ := (contentWidth - (diffGap * ((diffCols : ℚ) - 1))) / (diffCols : ℚ)

/-- Per-item required height of a differentiator card:
`Header (10) + Text (lines * 5) + Padding (10)`, i.e.
`h = 20 + lines.length * 5` with `lines = splitTextToSize(diff, diffCardWidth - 8)`. -/
def diffReqHeight (split : SplitFn) (d : String) : ℚ :=
  20 + ((split d (diffCardWidth - 8)).length : ℚ) * 5

/--
```
let maxDiffHeight = 0;
battleCard.differentiators.forEach(diff => {
  const lines = pdf.splitTextToSize(diff, diffCardWidth - 8);
  const h = 20 + (lines.length * 5);
  if (h > maxDiffHeight) maxDiffHeight = h;
});
```
-/
def maxDiffHeight (split : SplitFn) (diffs : List String) : ℚ :=
  diffs.foldl
    (fun m d => if diffReqHeight split d > m then diffReqHeight split d else m) 0

/-- The row-boundary bookkeeping at the head of each grid iteration:
```
const colIndex = i % diffCols;
if (colIndex === 0 && i > 0) {
  y += maxDiffHeight + diffGap;
  checkPageBreak(maxDiffHeight + 20);
}
```
-/
def gridAdvance (maxH : ℚ) (i : ℕ) (st : PdfState) : PdfState :=
  if i % diffCols = 0 ∧ 0 < i then
    (checkPageBreak (advanceY (maxH + diffGap) st) (maxH + 20)).1
  else st

/-- The geometry of one drawn card box (an observation of the `roundedRect`
call for that card). -/
structure CardBox where
  page : ℕ
  x : ℚ
  y : ℚ
  w : ℚ
  h : ℚ
deriving Repr, DecidableEq

/-- `const xPos = margin + (colIndex * (diffCardWidth + diffGap))` for index `i`. -/
def gridXPos (i : ℕ) : ℚ :=
  margin + ((i % diffCols : ℕ) : ℚ) * (diffCardWidth + diffGap)

/-- One iteration of the grid-drawing loop body (for item `d` at index `i`):
the row-boundary bookkeeping (`gridAdvance`), then the card box
(`roundedRect`), top accent line, number badge, and wrapped text content.
Returns the new state and the card box drawn. -/
def gridStep (split : SplitFn) (maxH : ℚ) (d : String) (i : ℕ)
    (st : PdfState) : PdfState × CardBox :=
  let stA := gridAdvance maxH i st
  let xPos := gridXPos i
  let card : CardBox := ⟨stA.pages, xPos, stA.y, diffCardWidth, maxH⟩
  let stB := emit (.rrect stA.pages xPos stA.y diffCardWidth maxH) stA
  let stB := emit (.line stA.pages xPos stA.y (xPos + diffCardWidth) stA.y) stB
  let stB := emit (.text stA.pages [toString (i + 1)]
    (xPos + diffCardWidth - 5) (stA.y + 6)) stB
  let stB := emit (.text stA.pages (split d (diffCardWidth - 8))
    (xPos + 4) (stA.y + 10)) stB
  (stB, card)

/-- The grid-drawing loop (`battleCard.differentiators.forEach((diff, i) => …)`,
phase B of the Key Differentiators section).  Besides the drawing trace it
returns the list of card boxes drawn, in order. -/
def gridLoop (split : SplitFn) (maxH : ℚ) :
    List String → ℕ → PdfState → PdfState × List CardBox
  | [], _, st => (st, [])
  | d :: rest, i, st =>
    let s := gridStep split maxH d i st
    let out := gridLoop split maxH rest (i + 1) s.1
    (out.1, s.2 :: out.2)

/-- Section 4 of the render logic, "Key Differentiators (Uniform Grid UX)":
page-break guard, section header, max-height pre-measurement pass, grid
drawing, and the final cursor advance `y += maxDiffHeight + 15`. -/
def differentiatorsStage (split : SplitFn) (diffs : List String)
    (st : PdfState) : PdfState :=
  let st := (checkPageBreak st 60).1
  let st := drawSectionHeader "Key Differentiators" none st
  let maxH := maxDiffHeight split diffs
  let st := (gridLoop split maxH diffs 0 st).1
  advanceY (maxH + 15) st

/-- The card boxes the Key Differentiators grid draws for a given
differentiators list, starting from a given state (after the section
header). -/
def gridCards (split : SplitFn) (diffs : List String) (st : PdfState) :
    List CardBox :=
  (gridLoop split (maxDiffHeight split diffs) diffs 0 st).2

@[simp] lemma emit_pages (op : Op) (st : PdfState) : (emit op st).pages = st.pages := rfl

@[simp] lemma emit_y (op : Op) (st : PdfState) : (emit op st).y = st.y := rfl

@[simp] lemma emit_ops (op : Op) (st : PdfState) : (emit op st).ops = st.ops ++ [op] := rfl

@[simp] lemma advanceY_pages (h : ℚ) (st : PdfState) : (advanceY h st).pages = st.pages := rfl

@[simp] lemma advanceY_y (h : ℚ) (st : PdfState) : (advanceY h st).y = st.y + h := rfl

@[simp] lemma advanceY_ops (h : ℚ) (st : PdfState) : (advanceY h st).ops = st.ops := rfl

@[simp] lemma gridStep_st_y (split : SplitFn) (maxH : ℚ) (d : String) (i : ℕ)
    (st : PdfState) :
    (gridStep split maxH d i st).1.y = (gridAdvance maxH i st).y := rfl

@[simp] lemma gridStep_st_pages (split : SplitFn) (maxH : ℚ) (d : String)
    (i : ℕ) (st : PdfState) :
    (gridStep split maxH d i st).1.pages = (gridAdvance maxH i st).pages := rfl

@[simp] lemma gridStep_card (split : SplitFn) (maxH : ℚ) (d : String) (i : ℕ)
    (st : PdfState) :
    (gridStep split maxH d i st).2 =
      ⟨(gridAdvance maxH i st).pages, gridXPos i,
        (gridAdvance maxH i st).y, diffCardWidth, maxH⟩ := rfl

lemma gridAdvance_noop (maxH : ℚ) (i : ℕ) (st : PdfState)
    (h : ¬(i % diffCols = 0 ∧ 0 < i)) : gridAdvance maxH i st = st :=
  if_neg h

lemma gridLoop_length (split : SplitFn) (maxH : ℚ) :
    ∀ (l : List String) (i : ℕ) (st : PdfState),
      ((gridLoop split maxH l i st).2).length = l.length := by
  intro l
  induction l with
  | nil => intro i st; simp [gridLoop]
  | cons d rest ih => intro i st; simp [gridLoop, ih]

lemma gridLoop_dims (split : SplitFn) (maxH : ℚ) :
    ∀ (l : List String) (i : ℕ) (st : PdfState),
      ∀ c ∈ (gridLoop split maxH l i st).2, c.h = maxH ∧ c.w = diffCardWidth := by
  intro l
  induction l with
  | nil => intro i st c hc; simp [gridLoop] at hc
  | cons d rest ih =>
      intro i st c hc
      simp only [gridLoop, List.mem_cons] at hc
      rcases hc with hc | hc
      · subst hc; exact ⟨rfl, rfl⟩
      · exact ih (i + 1) _ c hc

lemma gridLoop_head (split : SplitFn) (maxH : ℚ) (d : String)
    (rest : List String) (i : ℕ) (st : PdfState) :
    ((gridLoop split maxH (d :: rest) i st).2).head? =
      some ⟨(gridAdvance maxH i st).pages, gridXPos i,
        (gridAdvance maxH i st).y, diffCardWidth, maxH⟩ := by
  simp [gridLoop]

lemma gridLoop_aligned (split : SplitFn) (maxH : ℚ) :
    ∀ (l : List String) (i : ℕ) (st : PdfState) (k : ℕ)
      (hk : k + 1 < ((gridLoop split maxH l i st).2).length),
      (i + k + 1) % diffCols ≠ 0 →
      (((gridLoop split maxH l i st).2).get ⟨k + 1, hk⟩).y =
          (((gridLoop split maxH l i st).2).get
            ⟨k, Nat.lt_of_succ_lt hk⟩).y
        ∧ (((gridLoop split maxH l i st).2).get ⟨k + 1, hk⟩).page =
            (((gridLoop split maxH l i st).2).get
              ⟨k, Nat.lt_of_succ_lt hk⟩).page := by
  intro l
  induction l with
  | nil => intro i st k hk; simp [gridLoop] at hk
  | cons d rest ih =>
      intro i st k hk hmod
      cases rest with
      | nil =>
          exfalso
          have h1 := hk
          simp only [gridLoop_length, List.length_cons, List.length_nil] at h1
          omega
      | cons d' rest' =>
          cases k with
          | zero =>
              -- consecutive cards within one row: the head card of this
              -- iteration and the head card of the next; `(i+1) % 3 ≠ 0`
              -- disables `gridAdvance`, so `y` and the page are unchanged.
              have hnoop : gridAdvance maxH (i + 1)
                  (gridStep split maxH d i st).1 =
                  (gridStep split maxH d i st).1 := by
                apply gridAdvance_noop
                intro hcond
                exact hmod (by simpa using hcond.1)
              constructor <;>
                simp [gridLoop, hnoop]
          | succ k' =>
              have hmod' : ((i + 1) + k' + 1) % diffCols ≠ 0 := by
                have he : (i + 1) + k' + 1 = i + (k' + 1) + 1 := by omega
                rw [he]; exact hmod
              have hk' : k' + 1 <
                  ((gridLoop split maxH (d' :: rest') (i + 1)
                    (gridStep split maxH d i st).1).2).length := by
                have h2 := hk
                simp only [gridLoop_length, List.length_cons] at h2 ⊢
                omega
              have hres := ih (i + 1) (gridStep split maxH d i st).1 k' hk' hmod'
              simpa [gridLoop] using hres

lemma diffReqHeight_pos (split : SplitFn) (d : String) :
    0 < diffReqHeight split d := by
  have h0 : (0 : ℚ) ≤ ((split d (diffCardWidth - 8)).length : ℚ) :=
    Nat.cast_nonneg _
  unfold diffReqHeight
  linarith

lemma maxDiff_foldl_le_self (split : SplitFn) :
    ∀ (l : List String) (acc : ℚ),
      acc ≤ l.foldl
        (fun m d => if diffReqHeight split d > m then diffReqHeight split d else m)
        acc := by
  intro l
  induction l with
  | nil => intro acc; simp
  | cons d rest ih =>
      intro acc
      refine le_trans ?_ (ih _)
      by_cases hc : diffReqHeight split d > acc <;> simp [hc]
      exact le_of_lt hc

lemma maxDiff_foldl_ge (split : SplitFn) :
    ∀ (l : List String) (acc : ℚ) (d : String), d ∈ l →
      diffReqHeight split d ≤ l.foldl
        (fun m d => if diffReqHeight split d > m then diffReqHeight split d else m)
        acc := by
  intro l
  induction l with
  | nil => intro acc d hd; simp at hd
  | cons e rest ih =>
      intro acc d hd
      rcases List.mem_cons.mp hd with hd | hd
      · subst hd
        refine le_trans ?_ (maxDiff_foldl_le_self split rest _)
        by_cases hc : diffReqHeight split d > acc <;> simp [hc]
        exact le_of_not_lt hc
      · exact ih _ d hd

lemma maxDiff_foldl_mem (split : SplitFn) :
    ∀ (l : List String) (acc : ℚ),
      l.foldl
          (fun m d => if diffReqHeight split d > m then diffReqHeight split d else m)
          acc = acc
      ∨ ∃ d ∈ l,
          l.foldl
            (fun m d => if diffReqHeight split d > m then diffReqHeight split d else m)
            acc = diffReqHeight split d := by
  intro l
  induction l with
  | nil => intro acc; left; rfl
  | cons e rest ih =>
      intro acc
      rcases ih ((fun m d => if diffReqHeight split d > m then diffReqHeight split d else m) acc e) with h | ⟨d, hd, h⟩
      · by_cases hc : diffReqHeight split e > acc
        · right
          refine ⟨e, List.mem_cons_self _ _, ?_⟩
          simpa [List.foldl_cons, hc] using h
        · left
          simpa [List.foldl_cons, hc] using h
      · right
        exact ⟨d, List.mem_cons_of_mem _ hd, by simpa [List.foldl_cons] using h⟩

lemma maxDiffHeight_ge (split : SplitFn) (diffs : List String) :
    ∀ d ∈ diffs, diffReqHeight split d ≤ maxDiffHeight split diffs := by
  intro d hd
  exact maxDiff_foldl_ge split diffs 0 d hd

lemma maxDiffHeight_attained (split : SplitFn) (diffs : List String)
    (hne : diffs ≠ []) :
    ∃ d ∈ diffs, maxDiffHeight split diffs = diffReqHeight split d := by
  rcases maxDiff_foldl_mem split diffs 0 with h | h
  · exfalso
    rcases List.exists_mem_of_ne_nil diffs hne with ⟨d, hd⟩
    have hge := maxDiffHeight_ge split diffs d hd
    have hpos := diffReqHeight_pos split d
    rw [maxDiffHeight] at hge
    rw [h] at hge
    linarith
  · exact h

/-- The seven-short-strings instance of the spec's grid example. -/
def sevenDiffs : List String := ["D1", "D2", "D3", "D4", "D5", "D6", "D7"]

lemma grid_seven_concrete :
    (gridCards splitOne sevenDiffs ⟨1, 100, []⟩).map (fun c => (c.y, c.h)) =
      [(100, 25), (100, 25), (100, 25), (130, 25), (130, 25), (130, 25),
        (160, 25)] := by
  norm_num [gridCards, gridLoop, gridStep, gridAdvance, gridXPos, maxDiffHeight,
    diffReqHeight, splitOne, sevenDiffs, checkPageBreak, advanceY, emit,
    margin, pageHeight, diffGap, diffCols, diffCardWidth, contentWidth, pageWidth]

/-- C3: for a non-empty differentiators list the grid renderer computes one
shared card height — the maximum of the per-item requirements measured up
front — draws every card at exactly that height (and the fixed card width),
emits one card per item, and advances the cursor only at row boundaries
(indices divisible by 3): consecutive cards within a row share their `y`
offset and their page.  In particular (last conjunct) 7 short one-line
strings from offset 100 yield 3 rows (3+3+1) at offsets 100/130/160 with all
7 cards of identical height 25 = the tallest single-item requirement. -/
theorem grid_uniform_spec (split : SplitFn) (st : PdfState)
    (diffs : List String) (hne : diffs ≠ []) :
    (∀ c ∈ gridCards split diffs st,
        c.h = maxDiffHeight split diffs ∧ c.w = diffCardWidth)
    ∧ (∀ d ∈ diffs, diffReqHeight split d ≤ maxDiffHeight split diffs)
    ∧ (∃ d ∈ diffs, maxDiffHeight split diffs = diffReqHeight split d)
    ∧ (gridCards split diffs st).length = diffs.length
    ∧ (∀ (k : ℕ) (hk : k + 1 < (gridCards split diffs st).length),
        (k + 1) % diffCols ≠ 0 →
        ((gridCards split diffs st).get ⟨k + 1, hk⟩).y =
            ((gridCards split diffs st).get ⟨k, Nat.lt_of_succ_lt hk⟩).y
          ∧ ((gridCards split diffs st).get ⟨k + 1, hk⟩).page =
            ((gridCards split diffs st).get ⟨k, Nat.lt_of_succ_lt hk⟩).page)
    ∧ (gridCards splitOne sevenDiffs ⟨1, 100, []⟩).map (fun c => (c.y, c.h)) =
        [(100, 25), (100, 25), (100, 25), (130, 25), (130, 25), (130, 25),
          (160, 25)] := by
  refine ⟨?_, maxDiffHeight_ge split diffs,
    maxDiffHeight_attained split diffs hne, ?_, ?_, ?_⟩
  · exact gridLoop_dims split (maxDiffHeight split diffs) diffs 0 st
  · exact gridLoop_length split (maxDiffHeight split diffs) diffs 0 st
  · intro k hk hmod
    have h := gridLoop_aligned split (maxDiffHeight split diffs) diffs 0 st k hk
      (by simpa using hmod)
    exact h
  · exact grid_seven_concrete

/-- Witness for `grid_uniform_spec`: the seven-item instance is non-empty and
draws exactly seven cards. -/
theorem grid_uniform_spec_witness :
    sevenDiffs ≠ [] ∧ (gridCards splitOne sevenDiffs ⟨1, 100, []⟩).length = 7 :=
  ⟨by decide, by
    have h := (grid_uniform_spec splitOne ⟨1, 100, []⟩ sevenDiffs
      (by decide)).2.2.2.1
    simpa [sevenDiffs] using h⟩

/-- `const col1Width = contentWidth * 0.35` — 35% for Objection. -/
def col1Width : ℚ := contentWidth * (0.35 : ℚ)

/-- `const col2Width = contentWidth * 0.65` — 65% for Response. -/
def col2Width : ℚ := contentWidth * (0.65 : ℚ)

/-- `const col2X = margin + col1Width`. -/
def col2X : ℚ := margin + col1Width

/-- Per-row height of the objections table:
`Math.max(qLines.length, aLines.length) * 5 + 10` (+10 for top/bottom padding). -/
def tableRowHeight (split : SplitFn) (o : Objection) : ℚ :=
  ((max (split o.objection (col1Width - 6)).length
      (split o.response (col2Width - 6)).length : ℕ) : ℚ) * 5 + 10

/-- The header row redrawn after a mid-table page break:
```
pdf.rect(margin, y, contentWidth, 8, 'F');
pdf.text("RISK SIGNAL (CONT.)", margin + 3, y + 5);
pdf.text("POSITIONING GUIDANCE", col2X + 3, y + 5);
y += 8;
```
-/
def drawContHeader (st : PdfState) : PdfState :=
  let st := emit (.rect st.pages margin st.y contentWidth 8) st
  let st := emit (.text st.pages ["RISK SIGNAL (CONT.)"] (margin + 3) (st.y + 5)) st
  let st := emit (.text st.pages ["POSITIONING GUIDANCE"] (col2X + 3) (st.y + 5)) st
  advanceY 8 st

/-- Observable events of the objections-table loop: a redrawn (continuation)
column-header row, or one objection row with its wrapped question/answer
lines, its height, and whether drawing it triggered a page break. -/
inductive TableEvent where
  | contHeader (page : ℕ) (y : ℚ) (left right : String)
  | row (page : ℕ) (y : ℚ) (q a : List String) (height : ℚ) (broke : Bool)
deriving Repr, DecidableEq

/-- One iteration of `battleCard.objections.forEach((obj) => …)`: measure the
two cells, compute the row height, break the page if needed (redrawing the
column header with the "(CONT.)" marker), then draw backgrounds, borders and
the two text blocks and advance by the row height. -/
def tableStep (split : SplitFn) (o : Objection) (st : PdfState) :
    PdfState × List TableEvent :=
  let qLines := split o.objection (col1Width - 6)
  let aLines := split o.response (col2Width - 6)
  let rowHeight := tableRowHeight split o
  let br := checkPageBreak st rowHeight
  let st1 := br.1
  let broke := br.2
  let st2 := if broke then drawContHeader st1 else st1
  let hdrEvents : List TableEvent :=
    if broke then
      [.contHeader st1.pages st1.y "RISK SIGNAL (CONT.)" "POSITIONING GUIDANCE"]
    else []
  let st3 := emit (.rect st2.pages margin st2.y col1Width rowHeight) st2
  let st3 := emit (.rect st3.pages col2X st3.y col2Width rowHeight) st3
  let st3 := emit (.line st3.pages margin (st3.y + rowHeight)
    (margin + contentWidth) (st3.y + rowHeight)) st3
  let st3 := emit (.line st3.pages col2X st3.y col2X (st3.y + rowHeight)) st3
  let st3 := emit (.text st3.pages qLines (margin + 3) (st3.y + 7)) st3
  let st3 := emit (.text st3.pages aLines (col2X + 3) (st3.y + 7)) st3
  (advanceY rowHeight st3,
    hdrEvents ++ [.row st2.pages st2.y qLines aLines rowHeight broke])

/-- The rows loop of the Objection Handling table. -/
def tableLoop (split : SplitFn) :
    List Objection → PdfState → PdfState × List TableEvent
  | [], st => (st, [])
  | o :: rest, st =>
    let s := tableStep split o st
    let out := tableLoop split rest s.1
    (out.1, s.2 ++ out.2)

/-- The rows drawn by a table trace: wrapped question lines, wrapped answer
lines and row height, in drawing order. -/
def rowsOf (evs : List TableEvent) : List (List String × List String × ℚ) :=
  evs.filterMap fun ev =>
    match ev with
    | .row _ _ q a h _ => some (q, a, h)
    | _ => none

/-- Well-formedness of a table trace: it is a sequence of chunks, each either
a plain row (no page break) or a page-broken row immediately preceded by the
redrawn column header, which sits at the top margin of the new page, carries
the "(CONT.)" marker on the left header, and shares the row's page; the
broken row itself starts just below that header (margin + 8). -/
inductive TableWF : List TableEvent → Prop
  | nil : TableWF []
  | plain (p : ℕ) (y : ℚ) (q a : List String) (h : ℚ) (rest : List TableEvent) :
      TableWF rest → TableWF (.row p y q a h false :: rest)
  | broken (p : ℕ) (q a : List String) (h : ℚ) (rest : List TableEvent) :
      TableWF rest →
      TableWF (.contHeader p margin "RISK SIGNAL (CONT.)" "POSITIONING GUIDANCE"
        :: .row p (margin + 8) q a h true :: rest)

lemma checkPageBreak_broke_y (st : PdfState) (h : ℚ)
    (hb : (checkPageBreak st h).2 = true) : (checkPageBreak st h).1.y = margin := by
  by_cases hc : st.y + h > pageHeight - margin
  · simp [checkPageBreak, hc]
  · simp [checkPageBreak, hc] at hb

lemma checkPageBreak_not_broke (st : PdfState) (h : ℚ)
    (hb : (checkPageBreak st h).2 = false) : (checkPageBreak st h).1 = st := by
  by_cases hc : st.y + h > pageHeight - margin
  · simp [checkPageBreak, hc] at hb
  · simp [checkPageBreak, hc]

lemma tableLoop_wf (split : SplitFn) :
    ∀ (objs : List Objection) (st : PdfState),
      TableWF (tableLoop split objs st).2 := by
  intro objs
  induction objs with
  | nil => intro st; exact TableWF.nil
  | cons o rest ih =>
      intro st
      by_cases hbr : (checkPageBreak st (tableRowHeight split o)).2 = true
      · have hy := checkPageBreak_broke_y st (tableRowHeight split o) hbr
        simp only [tableLoop, tableStep, hbr, if_true, List.cons_append,
          List.nil_append, hy, drawContHeader, emit_pages, emit_y,
          advanceY_pages, advanceY_y, List.singleton_append]
        exact TableWF.broken _ _ _ _ _ (ih _)
      · have hb' : (checkPageBreak st (tableRowHeight split o)).2 = false :=
          Bool.not_eq_true _ ▸ (by simpa using hbr)
        simp only [tableLoop, tableStep, hb', if_false, Bool.false_eq_true,
          List.nil_append, List.singleton_append]
        exact TableWF.plain _ _ _ _ _ _ (ih _)

lemma rowsOf_append (a b : List TableEvent) :
    rowsOf (a ++ b) = rowsOf a ++ rowsOf b := by
  simp [rowsOf]

lemma tableStep_rows (split : SplitFn) (o : Objection) (st : PdfState) :
    rowsOf (tableStep split o st).2 =
      [(split o.objection (col1Width - 6), split o.response (col2Width - 6),
        tableRowHeight split o)] := by
  by_cases hbr : (checkPageBreak st (tableRowHeight split o)).2 = true <;>
    simp [tableStep, hbr, rowsOf]

lemma tableLoop_cons (split : SplitFn) (o : Objection) (rest : List Objection)
    (st : PdfState) :
    (tableLoop split (o :: rest) st).2 =
      (tableStep split o st).2 ++ (tableLoop split rest (tableStep split o st).1).2 :=
  rfl

lemma tableLoop_rows (split : SplitFn) :
    ∀ (objs : List Objection) (st : PdfState),
      rowsOf (tableLoop split objs st).2 =
        objs.map (fun o => (split o.objection (col1Width - 6),
          split o.response (col2Width - 6), tableRowHeight split o)) := by
  intro objs
  induction objs with
  | nil => intro st; rfl
  | cons o rest ih =>
      intro st
      rw [tableLoop_cons, rowsOf_append, tableStep_rows, ih]
      simp

/-- Section 5 of the render logic, "Objection Handling (Table Layout)":
page-break guard, section header, initial (non-continuation) column header
row, the rows loop, and the trailing `y += 10`. -/
def objectionsStage (split : SplitFn) (objs : List Objection)
    (st : PdfState) : PdfState :=
  let st := (checkPageBreak st 60).1
  let st := drawSectionHeader "Objection Handling" none st
  let st := emit (.rect st.pages margin st.y contentWidth 8) st
  let st := emit (.text st.pages ["RISK SIGNAL"] (margin + 3) (st.y + 5)) st
  let st := emit (.text st.pages ["POSITIONING GUIDANCE"] (col2X + 3) (st.y + 5)) st
  let st := advanceY 8 st
  let st := (tableLoop split objs st).1
  advanceY 10 st

/-- C4: for every objections list, every table row's height is
`max(wrapped question lines, wrapped answer lines) × 5 + 10`, every
objection's question/answer text is rendered exactly once and in input order
(first conjunct: the rows of the trace are exactly the list of per-objection
wrapped cells), and whenever a row triggers a page break the column header
row is redrawn at the top margin of the new page with the "(CONT.)" marker
on the left header, immediately before that row (second conjunct). -/
theorem objections_table_spec (split : SplitFn) (st : PdfState)
    (objs : List Objection) :
    rowsOf (tableLoop split objs st).2 =
      objs.map (fun o => (split o.objection (col1Width - 6),
        split o.response (col2Width - 6),
        ((max (split o.objection (col1Width - 6)).length
            (split o.response (col2Width - 6)).length : ℕ) : ℚ) * 5 + 10))
    ∧ TableWF (tableLoop split objs st).2 :=
  ⟨by simpa [tableRowHeight] using tableLoop_rows split objs st,
    tableLoop_wf split objs st⟩

/-- Whether an op is a drawn line (`pdf.line`). -/
def Op.isLine : Op → Bool
  | .line _ _ _ _ _ => true
  | _ => false

/-- The footer / page-numbers pass:
```
const totalPages = pdf.getNumberOfPages();
for (let i = 1; i <= totalPages; i++) {
  pdf.setPage(i);
  pdf.text(`Confidential - Internal Use Only`, margin, pageHeight - 10);
  pdf.text(`Page ${i} of ${totalPages}`, pageWidth - margin - 15, pageHeight - 10);
}
```
`footerOps total` is the list of operations the loop draws (two text ops per
page, on page `i` for `i = 1 … total`). -/
def footerOps (totalPages : ℕ) : List Op :=
  (List.range totalPages).flatMap fun k =>
    [Op.text (k + 1) ["Confidential - Internal Use Only"] margin (pageHeight - 10),
     Op.text (k + 1) ["Page " ++ toString (k + 1) ++ " of " ++ toString totalPages]
       (pageWidth - margin - 15) (pageHeight - 10)]

/-- Appends the footer operations for all produced pages to the trace. -/
def footerPass (st : PdfState) : PdfState :=
  { st with ops := st.ops ++ footerOps st.pages }

/-- C5 counterexample: at total page count 3 the footer pass emits exactly
six operations (two texts per page) and none of them is a line — so the
claimed "separator line above the footer band" is not drawn on any page. -/
theorem footer_no_separator_counterexample :
    (footerOps 3).length = 6
    ∧ (footerOps 3).all (fun op => ! Op.isLine op) = true := by
  constructor
  · rfl
  · rfl

/-- C5 (amended): the footer pass stamps every page `i ∈ [1, N]` (where `N`
is the total page count of the laid-out document) with the left confidential
notice and the text "Page i of N" at the right footer position — no page is
missing its footer — but it draws no separator line: every footer operation
is a text operation. -/
theorem footer_stamps_every_page (st : PdfState) (i : ℕ)
    (h1 : 1 ≤ i) (h2 : i ≤ st.pages) :
    Op.text i ["Confidential - Internal Use Only"] margin (pageHeight - 10) ∈
        (footerPass st).ops
    ∧ Op.text i ["Page " ++ toString i ++ " of " ++ toString st.pages]
        (pageWidth - margin - 15) (pageHeight - 10) ∈ (footerPass st).ops
    ∧ ∀ op ∈ footerOps st.pages, Op.isLine op = false := by
  have hk : i - 1 ∈ List.range st.pages := by
    rw [List.mem_range]; omega
  have hi : i - 1 + 1 = i := by omega
  refine ⟨?_, ?_, ?_⟩
  · apply List.mem_append_right
    apply List.mem_flatMap.mpr
    exact ⟨i - 1, hk, by rw [hi]; simp⟩
  · apply List.mem_append_right
    apply List.mem_flatMap.mpr
    exact ⟨i - 1, hk, by rw [hi]; simp⟩
  · intro op hop
    rcases List.mem_flatMap.mp hop with ⟨k, _, hmem⟩
    simp only [List.mem_cons, List.not_mem_nil, or_false] at hmem
    rcases hmem with h | h <;> (rw [h]; rfl)

/-- Witness for `footer_stamps_every_page` at page 2 of a 3-page document. -/
theorem footer_stamps_every_page_witness :
    (1 ≤ 2 ∧ 2 ≤ (⟨3, 0, []⟩ : PdfState).pages)
    ∧ Op.text 2 ["Confidential - Internal Use Only"] margin (pageHeight - 10) ∈
        (footerPass ⟨3, 0, []⟩).ops :=
  ⟨⟨by decide, by decide⟩,
    (footer_stamps_every_page ⟨3, 0, []⟩ 2 (by decide) (by decide)).1⟩

/-- `const headerHeight = 45`. -/
def headerHeight : ℚ := 45

/-- Section 1 of the render logic: the dark header banner, optional logo,
"BATTLE CARD" title, record title, generated date, then `y = headerHeight + 10`. -/
def bannerStage (logoDataUrl : Option String) (title generatedDate : String)
    (st : PdfState) : PdfState :=
  let st := emit (.rect st.pages 0 0 pageWidth headerHeight) st
  let st := match logoDataUrl with
    | some _ => emit (.image st.pages (pageWidth - margin - 40) 3 40 40) st
    | none => st
  let st := emit (.text st.pages ["BATTLE CARD"] margin 20) st
  let st := emit (.text st.pages [title] margin 28) st
  let st := emit (.text st.pages ["Generated: " ++ generatedDate] margin 35) st
  { st with y := headerHeight + 10 }

/-- Section 2, "Executive Overview": unconditional section header, then the
full-width "At a Glance" card, then `y += overviewHeight + 10`. -/
def overviewStage (split : SplitFn) (overview : String) (st : PdfState) :
    PdfState :=
  let st := drawSectionHeader "Executive Overview" none st
  let s := drawCard split margin st.y contentWidth "At a Glance"
    (Sum.inl overview) false st
  advanceY (s.2 + 10) s.1

/-- Section 3, "Head-to-Head Comparison": unconditional section header, the
two half-width cards drawn at the same `y`, then `y += max(h1, h2) + 12`. -/
def headToHeadStage (split : SplitFn) (strengths weaknesses : List String)
    (st : PdfState) : PdfState :=
  let st := drawSectionHeader "Head-to-Head Comparison" none st
  let y0 := st.y
  let s1 := drawCard split margin y0 colWidth "Tuskira Strengths"
    (Sum.inr strengths) true st
  let s2 := drawCard split (margin + colWidth + 10) y0 colWidth
    "Competitor Weaknesses" (Sum.inr weaknesses) true s1.1
  advanceY (max s1.2 s2.2 + 12) s2.1

/-- Section 6, "Pricing & Discovery": page-break guard, `rowTop := y`,
"Pricing Model" section header, the half-width "Pricing" card, the manually
drawn "DISCOVERY QUESTIONS" header at `rowTop + 5` on the right, the
half-width "Ask This" card at the current `y`, then `y += max + 15`. -/
def pricingStage (split : SplitFn) (pricing : String)
    (questions : List String) (st : PdfState) : PdfState :=
  let st := (checkPageBreak st 50).1
  let rowTop := st.y
  let st := drawSectionHeader "Pricing Model" none st
  let s1 := drawCard split margin st.y colWidth "Pricing"
    (Sum.inl pricing) false st
  let st := s1.1
  let st := emit (.rect st.pages (margin + colWidth + 10) (rowTop + 5) 4 8) st
  let st := emit (.text st.pages ["DISCOVERY QUESTIONS"]
    (margin + colWidth + 10 + 8) (rowTop + 5 + 6)) st
  let s2 := drawCard split (margin + colWidth + 10) st.y colWidth "Ask This"
    (Sum.inr questions) true st
  advanceY (max s1.2 s2.2 + 15) s2.1

/-- One iteration of `battleCard.testimonials.forEach((t) => …)`: wrap the
quote, compute the dynamic box height, page-break guard, then the rounded
box, quote glyph, wrapped quote text and company line, then
`y += testimonialBoxHeight + 4`. -/
def testimonialStep (split : SplitFn) (t : Testimonial) (st : PdfState) :
    PdfState :=
  let quoteLines := split t.quote (contentWidth - 20)
  let testimonialBoxHeight : ℚ := (quoteLines.length : ℚ) * 5 + 18
  let st := (checkPageBreak st (testimonialBoxHeight + 5)).1
  let st := emit (.rrect st.pages margin st.y contentWidth testimonialBoxHeight) st
  let st := emit (.text st.pages ["“"] (margin + 4) (st.y + 12)) st
  let st := emit (.text st.pages quoteLines (margin + 12) (st.y + 8)) st
  let st := emit (.text st.pages ["— " ++ t.company] (margin + 12)
    (st.y + 8 + (quoteLines.length : ℚ) * 5 + 4)) st
  advanceY (testimonialBoxHeight + 4) st

/-- Section 7, "Customer Testimonies":
`if (checkPageBreak(40)) drawSectionHeader(…) else drawSectionHeader(…)`
(both branches are identical in the source), then the testimonials loop. -/
def testimonialsStage (split : SplitFn) (ts : List Testimonial)
    (st : PdfState) : PdfState :=
  let br := checkPageBreak st 40
  let st :=
    if br.2 then drawSectionHeader "Customer Testimonies" none br.1
    else drawSectionHeader "Customer Testimonies" none br.1
  ts.foldl (fun st t => testimonialStep split t st) st

/-- The export's drawing state paired with the (potentially mutable,
reference-passed) battle-card record, so that the absence of record mutation
is part of the translation rather than an assumption: every stage returns
the record component untouched because no statement of the source assigns to
any record field. -/
structure ExportState where
  pdf : PdfState
  card : BattleCardContent
deriving Repr, DecidableEq

/-- jsPDF's initial document state: one page, `let y = 0`, no drawing yet. -/
def initialState : PdfState := ⟨1, 0, []⟩

/-- The full `exportProfessionalPDF` render pipeline (everything except the
final `pdf.save(fileName)` host call).  Parameters abstracting host
primitives: `split` (text measurement), `logoDataUrl` (the optional logo
argument; only its presence matters to the trace), `fmtDate` (the host
locale-date formatter applied to `generatedAt`), and `nowFormatted` (the
formatted current date used when `generatedAt` is falsy, i.e. empty). -/
def exportProfessionalPDF (split : SplitFn) (logoDataUrl : Option String)
    (fmtDate : String → String) (nowFormatted : String)
    (σ : ExportState) : ExportState :=
  let generatedDate :=
    if σ.card.generatedAt = "" then nowFormatted else fmtDate σ.card.generatedAt
  let st := bannerStage logoDataUrl σ.card.title generatedDate σ.pdf
  let st := overviewStage split σ.card.overview st
  let st := headToHeadStage split σ.card.strengths σ.card.weaknesses st
  let st := differentiatorsStage split σ.card.differentiators st
  let st := objectionsStage split σ.card.objections st
  let st := pricingStage split σ.card.pricing σ.card.questions st
  let st := testimonialsStage split σ.card.testimonials st
  { pdf := footerPass st, card := σ.card }

/-- `b`'s trace extends `a`'s: drawing only ever appends operations. -/
def TraceExtends (a b : PdfState) : Prop := ∃ d, b.ops = a.ops ++ d

lemma traceExtends_refl (a : PdfState) : TraceExtends a a := ⟨[], by simp⟩

lemma traceExtends_trans {a b c : PdfState} (h1 : TraceExtends a b)
    (h2 : TraceExtends b c) : TraceExtends a c := by
  rcases h1 with ⟨d1, hd1⟩
  rcases h2 with ⟨d2, hd2⟩
  exact ⟨d1 ++ d2, by rw [hd2, hd1, List.append_assoc]⟩

/-- A text operation mentioning the string `s` occurs in the trace. -/
def MentionsText (ops : List Op) (s : String) : Prop :=
  ∃ p ls x y, Op.text p ls x y ∈ ops ∧ s ∈ ls

lemma mentionsText_mono {ops d : List Op} {s : String}
    (h : MentionsText ops s) : MentionsText (ops ++ d) s := by
  rcases h with ⟨p, ls, x, y, hmem, hs⟩
  exact ⟨p, ls, x, y, List.mem_append_left _ hmem, hs⟩

lemma mentionsText_of_extends {a b : PdfState} {s : String}
    (h : TraceExtends a b) (hm : MentionsText a.ops s) :
    MentionsText b.ops s := by
  rcases h with ⟨d, hd⟩
  rw [hd]
  exact mentionsText_mono hm

@[simp] lemma checkPageBreak_fst_ops (st : PdfState) (h : ℚ) :
    (checkPageBreak st h).1.ops = st.ops := by
  by_cases hc : st.y + h > pageHeight - margin <;> simp [checkPageBreak, hc]

lemma extends_emit (op : Op) (st : PdfState) : TraceExtends st (emit op st) :=
  ⟨[op], rfl⟩

lemma extends_advanceY (h : ℚ) (st : PdfState) :
    TraceExtends st (advanceY h st) := ⟨[], by simp⟩

lemma extends_checkPageBreak (st : PdfState) (h : ℚ) :
    TraceExtends st (checkPageBreak st h).1 := ⟨[], by simp⟩

lemma extends_drawSectionHeader (t : String) (sub : Option String)
    (st : PdfState) : TraceExtends st (drawSectionHeader t sub st) := by
  cases sub with
  | none =>
      unfold drawSectionHeader
      exact traceExtends_trans (extends_checkPageBreak st 25)
        (traceExtends_trans (extends_advanceY 5 _)
          (traceExtends_trans (extends_emit _ _)
            (traceExtends_trans (extends_emit _ _) (extends_advanceY 12 _))))
  | some sub =>
      unfold drawSectionHeader
      exact traceExtends_trans (extends_checkPageBreak st 25)
        (traceExtends_trans (extends_advanceY 5 _)
          (traceExtends_trans (extends_emit _ _)
            (traceExtends_trans (extends_emit _ _)
              (traceExtends_trans (extends_emit _ _)
                (traceExtends_trans (extends_advanceY 5 _)
                  (extends_advanceY 12 _))))))

lemma extends_drawCard (split : SplitFn) (x yPos w : ℚ) (title : String)
    (content : CardContent) (isList : Bool) (st : PdfState) :
    TraceExtends st (drawCard split x yPos w title content isList st).1 := by
  unfold drawCard
  exact traceExtends_trans (extends_emit _ _)
    (traceExtends_trans (extends_emit _ _)
      (traceExtends_trans (extends_emit _ _) (extends_emit _ _)))

lemma extends_setY (v : ℚ) (st : PdfState) :
    TraceExtends st { st with y := v } := ⟨[], by simp⟩

lemma extends_bannerStage (logo : Option String) (title generatedDate : String)
    (st : PdfState) : TraceExtends st (bannerStage logo title generatedDate st) := by
  cases logo with
  | none =>
      unfold bannerStage
      exact traceExtends_trans (extends_emit _ _)
        (traceExtends_trans (extends_emit _ _)
          (traceExtends_trans (extends_emit _ _)
            (traceExtends_trans (extends_emit _ _) (extends_setY _ _))))
  | some u =>
      unfold bannerStage
      exact traceExtends_trans (extends_emit _ _)
        (traceExtends_trans (extends_emit _ _)
          (traceExtends_trans (extends_emit _ _)
            (traceExtends_trans (extends_emit _ _)
              (traceExtends_trans (extends_emit _ _) (extends_setY _ _)))))

lemma extends_overviewStage (split : SplitFn) (ov : String) (st : PdfState) :
    TraceExtends st (overviewStage split ov st) := by
  unfold overviewStage
  exact traceExtends_trans (extends_drawSectionHeader _ none st)
    (traceExtends_trans (extends_drawCard _ _ _ _ _ _ _ _)
      (extends_advanceY _ _))

lemma extends_headToHeadStage (split : SplitFn) (ss ws : List String)
    (st : PdfState) : TraceExtends st (headToHeadStage split ss ws st) := by
  unfold headToHeadStage
  exact traceExtends_trans (extends_drawSectionHeader _ none st)
    (traceExtends_trans (extends_drawCard _ _ _ _ _ _ _ _)
      (traceExtends_trans (extends_drawCard _ _ _ _ _ _ _ _)
        (extends_advanceY _ _)))

lemma extends_gridStep (split : SplitFn) (maxH : ℚ) (d : String) (i : ℕ)
    (st : PdfState) : TraceExtends st (gridStep split maxH d i st).1 := by
  have hadv : TraceExtends st (gridAdvance maxH i st) := by
    unfold gridAdvance
    by_cases hc : i % diffCols = 0 ∧ 0 < i
    · simp only [hc, if_true]
      exact traceExtends_trans (extends_advanceY _ _) (extends_checkPageBreak _ _)
    · simp only [hc, if_false]
      exact traceExtends_refl st
  unfold gridStep
  exact traceExtends_trans hadv
    (traceExtends_trans (extends_emit _ _)
      (traceExtends_trans (extends_emit _ _)
        (traceExtends_trans (extends_emit _ _) (extends_emit _ _))))

lemma extends_gridLoop (split : SplitFn) (maxH : ℚ) :
    ∀ (l : List String) (i : ℕ) (st : PdfState),
      TraceExtends st (gridLoop split maxH l i st).1 := by
  intro l
  induction l with
  | nil => intro i st; exact traceExtends_refl st
  | cons d rest ih =>
      intro i st
      exact traceExtends_trans (extends_gridStep split maxH d i st)
        (ih (i + 1) _)

lemma extends_differentiatorsStage (split : SplitFn) (diffs : List String)
    (st : PdfState) : TraceExtends st (differentiatorsStage split diffs st) := by
  unfold differentiatorsStage
  exact traceExtends_trans (extends_checkPageBreak st 60)
    (traceExtends_trans (extends_drawSectionHeader _ none _)
      (traceExtends_trans (extends_gridLoop split _ diffs 0 _)
        (extends_advanceY _ _)))

lemma extends_drawContHeader (st : PdfState) :
    TraceExtends st (drawContHeader st) := by
  unfold drawContHeader
  exact traceExtends_trans (extends_emit _ _)
    (traceExtends_trans (extends_emit _ _)
      (traceExtends_trans (extends_emit _ _) (extends_advanceY _ _)))

lemma extends_tableStep (split : SplitFn) (o : Objection) (st : PdfState) :
    TraceExtends st (tableStep split o st).1 := by
  have hbrk : TraceExtends st
      (if (checkPageBreak st (tableRowHeight split o)).2 then
        drawContHeader (checkPageBreak st (tableRowHeight split o)).1
      else (checkPageBreak st (tableRowHeight split o)).1) := by
    by_cases hc : (checkPageBreak st (tableRowHeight split o)).2 = true
    · simp only [hc, if_true]
      exact traceExtends_trans (extends_checkPageBreak _ _)
        (extends_drawContHeader _)
    · simp only [Bool.not_eq_true] at hc
      simp only [hc, Bool.false_eq_true, if_false]
      exact extends_checkPageBreak _ _
  unfold tableStep
  exact traceExtends_trans hbrk
    (traceExtends_trans (extends_emit _ _)
      (traceExtends_trans (extends_emit _ _)
        (traceExtends_trans (extends_emit _ _)
          (traceExtends_trans (extends_emit _ _)
            (traceExtends_trans (extends_emit _ _)
              (traceExtends_trans (extends_emit _ _) (extends_advanceY _ _)))))))

lemma extends_tableLoop (split : SplitFn) :
    ∀ (objs : List Objection) (st : PdfState),
      TraceExtends st (tableLoop split objs st).1 := by
  intro objs
  induction objs with
  | nil => intro st; exact traceExtends_refl st
  | cons o rest ih =>
      intro st
      exact traceExtends_trans (extends_tableStep split o st) (ih _)

lemma extends_objectionsStage (split : SplitFn) (objs : List Objection)
    (st : PdfState) : TraceExtends st (objectionsStage split objs st) := by
  unfold objectionsStage
  exact traceExtends_trans (extends_checkPageBreak st 60)
    (traceExtends_trans (extends_drawSectionHeader _ none _)
      (traceExtends_trans (extends_emit _ _)
        (traceExtends_trans (extends_emit _ _)
          (traceExtends_trans (extends_emit _ _)
            (traceExtends_trans (extends_advanceY 8 _)
              (traceExtends_trans (extends_tableLoop split objs _)
                (extends_advanceY 10 _)))))))

lemma extends_pricingStage (split : SplitFn) (pricing : String)
    (questions : List String) (st : PdfState) :
    TraceExtends st (pricingStage split pricing questions st) := by
  unfold pricingStage
  exact traceExtends_trans (extends_checkPageBreak st 50)
    (traceExtends_trans (extends_drawSectionHeader _ none _)
      (traceExtends_trans (extends_drawCard _ _ _ _ _ _ _ _)
        (traceExtends_trans (extends_emit _ _)
          (traceExtends_trans (extends_emit _ _)
            (traceExtends_trans (extends_drawCard _ _ _ _ _ _ _ _)
              (extends_advanceY _ _))))))

lemma extends_testimonialStep (split : SplitFn) (t : Testimonial)
    (st : PdfState) : TraceExtends st (testimonialStep split t st) := by
  unfold testimonialStep
  exact traceExtends_trans (extends_checkPageBreak _ _)
    (traceExtends_trans (extends_emit _ _)
      (traceExtends_trans (extends_emit _ _)
        (traceExtends_trans (extends_emit _ _)
          (traceExtends_trans (extends_emit _ _) (extends_advanceY _ _)))))

lemma extends_testimonialsFold (split : SplitFn) :
    ∀ (ts : List Testimonial) (st : PdfState),
      TraceExtends st (ts.foldl (fun st t => testimonialStep split t st) st) := by
  intro ts
  induction ts with
  | nil => intro st; exact traceExtends_refl st
  | cons t rest ih =>
      intro st
      exact traceExtends_trans (extends_testimonialStep split t st) (ih _)

lemma extends_testimonialsStage (split : SplitFn) (ts : List Testimonial)
    (st : PdfState) : TraceExtends st (testimonialsStage split ts st) := by
  unfold testimonialsStage
  by_cases hc : (checkPageBreak st 40).2 = true
  · simp only [hc, if_true]
    exact traceExtends_trans (extends_checkPageBreak st 40)
      (traceExtends_trans (extends_drawSectionHeader _ none _)
        (extends_testimonialsFold split ts _))
  · simp only [Bool.not_eq_true] at hc
    simp only [hc, Bool.false_eq_true, if_false]
    exact traceExtends_trans (extends_checkPageBreak st 40)
      (traceExtends_trans (extends_drawSectionHeader _ none _)
        (extends_testimonialsFold split ts _))

lemma extends_footerPass (st : PdfState) : TraceExtends st (footerPass st) :=
  ⟨footerOps st.pages, rfl⟩

lemma mentionsText_emit_text (p : ℕ) (ls : List String) (x y : ℚ)
    (st : PdfState) {s : String} (hs : s ∈ ls) :
    MentionsText (emit (.text p ls x y) st).ops s :=
  ⟨p, ls, x, y, by simp [emit], hs⟩

lemma mentions_drawSectionHeader (t : String) (st : PdfState) :
    MentionsText (drawSectionHeader t none st).ops t.toUpper := by
  unfold drawSectionHeader
  apply mentionsText_of_extends (extends_advanceY 12 _)
  exact mentionsText_emit_text _ [t.toUpper] _ _ _ (by simp)

lemma mentions_overviewStage (split : SplitFn) (ov : String) (st : PdfState) :
    MentionsText (overviewStage split ov st).ops ("Executive Overview".toUpper) := by
  unfold overviewStage
  exact mentionsText_of_extends (extends_advanceY _ _)
    (mentionsText_of_extends (extends_drawCard _ _ _ _ _ _ _ _)
      (mentions_drawSectionHeader _ st))

lemma mentions_headToHeadStage (split : SplitFn) (ss ws : List String)
    (st : PdfState) :
    MentionsText (headToHeadStage split ss ws st).ops
      ("Head-to-Head Comparison".toUpper) := by
  unfold headToHeadStage
  exact mentionsText_of_extends (extends_advanceY _ _)
    (mentionsText_of_extends (extends_drawCard _ _ _ _ _ _ _ _)
      (mentionsText_of_extends (extends_drawCard _ _ _ _ _ _ _ _)
        (mentions_drawSectionHeader _ st)))

lemma mentions_differentiatorsStage (split : SplitFn) (diffs : List String)
    (st : PdfState) :
    MentionsText (differentiatorsStage split diffs st).ops
      ("Key Differentiators".toUpper) := by
  unfold differentiatorsStage
  exact mentionsText_of_extends (extends_advanceY _ _)
    (mentionsText_of_extends (extends_gridLoop split _ diffs 0 _)
      (mentions_drawSectionHeader _ _))

lemma mentions_objectionsStage (split : SplitFn) (objs : List Objection)
    (st : PdfState) :
    MentionsText (objectionsStage split objs st).ops
      ("Objection Handling".toUpper) := by
  unfold objectionsStage
  exact mentionsText_of_extends (extends_advanceY 10 _)
    (mentionsText_of_extends (extends_tableLoop split objs _)
      (mentionsText_of_extends (extends_advanceY 8 _)
        (mentionsText_of_extends (extends_emit _ _)
          (mentionsText_of_extends (extends_emit _ _)
            (mentionsText_of_extends (extends_emit _ _)
              (mentions_drawSectionHeader _ _))))))

lemma mentions_pricingStage (split : SplitFn) (pricing : String)
    (questions : List String) (st : PdfState) :
    MentionsText (pricingStage split pricing questions st).ops
        ("Pricing Model".toUpper)
    ∧ MentionsText (pricingStage split pricing questions st).ops
        "DISCOVERY QUESTIONS" := by
  unfold pricingStage
  constructor
  · exact mentionsText_of_extends (extends_advanceY _ _)
      (mentionsText_of_extends (extends_drawCard _ _ _ _ _ _ _ _)
        (mentionsText_of_extends (extends_emit _ _)
          (mentionsText_of_extends (extends_emit _ _)
            (mentionsText_of_extends (extends_drawCard _ _ _ _ _ _ _ _)
              (mentions_drawSectionHeader _ _)))))
  · exact mentionsText_of_extends (extends_advanceY _ _)
      (mentionsText_of_extends (extends_drawCard _ _ _ _ _ _ _ _)
        (mentionsText_emit_text _ ["DISCOVERY QUESTIONS"] _ _ _ (by simp)))

lemma mentions_testimonialsStage (split : SplitFn) (ts : List Testimonial)
    (st : PdfState) :
    MentionsText (testimonialsStage split ts st).ops
      ("Customer Testimonies".toUpper) := by
  unfold testimonialsStage
  by_cases hc : (checkPageBreak st 40).2 = true
  · simp only [hc, if_true]
    exact mentionsText_of_extends (extends_testimonialsFold split ts _)
      (mentions_drawSectionHeader _ _)
  · simp only [Bool.not_eq_true] at hc
    simp only [hc, Bool.false_eq_true, if_false]
    exact mentionsText_of_extends (extends_testimonialsFold split ts _)
      (mentions_drawSectionHeader _ _)

/-- The drawing trace of a full export of record `r` from the fresh document
state. -/
def exportOps (split : SplitFn) (logo : Option String)
    (fmtDate : String → String) (nowFormatted : String)
    (r : BattleCardContent) : List Op :=
  (exportProfessionalPDF split logo fmtDate nowFormatted ⟨initialState, r⟩).pdf.ops

lemma export_mentions_headers (split : SplitFn) (logo : Option String)
    (fmt : String → String) (now : String) (r : BattleCardContent) :
    MentionsText (exportOps split logo fmt now r) ("Executive Overview".toUpper)
    ∧ MentionsText (exportOps split logo fmt now r) ("Head-to-Head Comparison".toUpper)
    ∧ MentionsText (exportOps split logo fmt now r) ("Key Differentiators".toUpper)
    ∧ MentionsText (exportOps split logo fmt now r) ("Objection Handling".toUpper)
    ∧ MentionsText (exportOps split logo fmt now r) ("Pricing Model".toUpper)
    ∧ MentionsText (exportOps split logo fmt now r) "DISCOVERY QUESTIONS"
    ∧ MentionsText (exportOps split logo fmt now r)
        ("Customer Testimonies".toUpper) := by
  simp only [exportOps, exportProfessionalPDF]
  refine ⟨?_, ?_, ?_, ?_, ?_, ?_, ?_⟩
  · exact mentionsText_of_extends (extends_footerPass _)
      (mentionsText_of_extends (extends_testimonialsStage _ _ _)
        (mentionsText_of_extends (extends_pricingStage _ _ _ _)
          (mentionsText_of_extends (extends_objectionsStage _ _ _)
            (mentionsText_of_extends (extends_differentiatorsStage _ _ _)
              (mentionsText_of_extends (extends_headToHeadStage _ _ _ _)
                (mentions_overviewStage _ _ _))))))
  · exact mentionsText_of_extends (extends_footerPass _)
      (mentionsText_of_extends (extends_testimonialsStage _ _ _)
        (mentionsText_of_extends (extends_pricingStage _ _ _ _)
          (mentionsText_of_extends (extends_objectionsStage _ _ _)
            (mentionsText_of_extends (extends_differentiatorsStage _ _ _)
              (mentions_headToHeadStage _ _ _ _)))))
  · exact mentionsText_of_extends (extends_footerPass _)
      (mentionsText_of_extends (extends_testimonialsStage _ _ _)
        (mentionsText_of_extends (extends_pricingStage _ _ _ _)
          (mentionsText_of_extends (extends_objectionsStage _ _ _)
            (mentions_differentiatorsStage _ _ _))))
  · exact mentionsText_of_extends (extends_footerPass _)
      (mentionsText_of_extends (extends_testimonialsStage _ _ _)
        (mentionsText_of_extends (extends_pricingStage _ _ _ _)
          (mentions_objectionsStage _ _ _)))
  · exact mentionsText_of_extends (extends_footerPass _)
      (mentionsText_of_extends (extends_testimonialsStage _ _ _)
        (mentions_pricingStage _ _ _ _).1)
  · exact mentionsText_of_extends (extends_footerPass _)
      (mentionsText_of_extends (extends_testimonialsStage _ _ _)
        (mentions_pricingStage _ _ _ _).2)
  · exact mentionsText_of_extends (extends_footerPass _)
      (mentions_testimonialsStage _ _ _)

/-- The record with all list fields empty and all string fields empty. -/
def emptyCard : BattleCardContent :=
  ⟨"", "", "", [], [], [], "", [], [], [], ""⟩

/-- C1 counterexample: for the record with every list field empty and an
empty overview (`emptyCard`), the exported document still draws the
"EXECUTIVE OVERVIEW" section header text — which is neither the title banner
nor a footer — contradicting the claim that no section header is emitted. -/
theorem empty_record_emits_section_header :
    (emptyCard.overview = "" ∧ emptyCard.differentiators = []
      ∧ emptyCard.strengths = [] ∧ emptyCard.weaknesses = []
      ∧ emptyCard.objections = [] ∧ emptyCard.questions = []
      ∧ emptyCard.testimonials = [])
    ∧ MentionsText (exportOps splitOne none (fun s => s) "" emptyCard)
        ("Executive Overview".toUpper) :=
  ⟨⟨rfl, rfl, rfl, rfl, rfl, rfl, rfl⟩,
    (export_mentions_headers splitOne none (fun s => s) "" emptyCard).1⟩

/-- C1 (amended): the export emits every section header unconditionally —
for every record (including records with empty list fields and empty
overview) and every measurement adapter, the exported trace contains the
uppercased header texts of all seven sections: Executive Overview,
Head-to-Head Comparison, Key Differentiators, Objection Handling, Pricing
Model, Discovery Questions, and Customer Testimonies.  No emptiness check
suppresses a section header. -/
theorem section_headers_unconditional (split : SplitFn) (logo : Option String)
    (fmt : String → String) (now : String) (r : BattleCardContent) :
    MentionsText (exportOps split logo fmt now r) ("Executive Overview".toUpper)
    ∧ MentionsText (exportOps split logo fmt now r) ("Head-to-Head Comparison".toUpper)
    ∧ MentionsText (exportOps split logo fmt now r) ("Key Differentiators".toUpper)
    ∧ MentionsText (exportOps split logo fmt now r) ("Objection Handling".toUpper)
    ∧ MentionsText (exportOps split logo fmt now r) ("Pricing Model".toUpper)
    ∧ MentionsText (exportOps split logo fmt now r) "DISCOVERY QUESTIONS"
    ∧ MentionsText (exportOps split logo fmt now r)
        ("Customer Testimonies".toUpper) :=
  export_mentions_headers split logo fmt now r

/-- C6: the layout engine is read-only over the record: running the full
export pipeline (in which the record component is threaded through exactly
as the source passes the `battleCard` reference) leaves every field of the
record unchanged. -/
theorem export_record_readonly (split : SplitFn) (logo : Option String)
    (fmt : String → String) (now : String) (r : BattleCardContent)
    (st : PdfState) :
    (exportProfessionalPDF split logo fmt now ⟨st, r⟩).card = r := rfl

/-- `battleCard.title.replace(/[^a-z0-9]/gi, '_')`: the regex matches every
single character outside `a-z`, `A-Z`, `0-9` (case-insensitive flag), and the
global replace maps each such character to one underscore. -/
def sanitizeTitle (t : String) : String :=
  ⟨t.data.map (fun c => if c.isAlphanum then c else '_')⟩

/-- ``const fileName = `BattleCard_${battleCard.title.replace(/[^a-z0-9]/gi, '_')}.pdf`;`` -/
def pdfFileName (r : BattleCardContent) : String :=
  "BattleCard_" ++ sanitizeTitle r.title ++ ".pdf"

lemma sanitize_filter (l : List Char) :
    (l.map (fun c => if c.isAlphanum then c else '_')).filter
        (fun c => c.isAlphanum) =
      l.filter (fun c => c.isAlphanum) := by
  induction l with
  | nil => rfl
  | cons c rest ih =>
      by_cases hc : c.isAlphanum = true
      · simp [hc, ih]
      · simp only [Bool.not_eq_true] at hc
        have hu : ('_').isAlphanum = false := by decide
        simp [hc, hu, ih]

/-- C7: the exported document's filename is `BattleCard_<sanitized>.pdf`
where the sanitized title has the same length as the title, keeps each
alphanumeric character in place (hence all alphanumeric characters in
order), and replaces every non-alphanumeric character by an underscore — so
every maximal run of non-alphanumeric characters maps to a same-length run
of underscores. -/
theorem filename_sanitize_spec (r : BattleCardContent) (i : ℕ)
    (h1 : i < (sanitizeTitle r.title).data.length)
    (h2 : i < r.title.data.length) :
    pdfFileName r = "BattleCard_" ++ sanitizeTitle r.title ++ ".pdf"
    ∧ (sanitizeTitle r.title).data.length = r.title.data.length
    ∧ (sanitizeTitle r.title).data.get ⟨i, h1⟩ =
        (if (r.title.data.get ⟨i, h2⟩).isAlphanum then r.title.data.get ⟨i, h2⟩
        else '_')
    ∧ (sanitizeTitle r.title).data.filter (fun c => c.isAlphanum) =
        r.title.data.filter (fun c => c.isAlphanum) := by
  refine ⟨rfl, by simp [sanitizeTitle], ?_, sanitize_filter r.title.data⟩
  simp [sanitizeTitle, List.get_eq_getElem]

/-- A concrete record whose title mixes alphanumerics, spaces and
punctuation, for the filename witness. -/
def demoTitleCard : BattleCardContent :=
  ⟨"card-1", "Acme Corp 2.0!", "", [], [], [], "", [], [], [], ""⟩

/-- Witness for `filename_sanitize_spec`: at index 4 of "Acme Corp 2.0!"
(a space) the hypotheses hold, and the sanitized title keeps its length. -/
theorem filename_sanitize_spec_witness :
    (4 < (sanitizeTitle demoTitleCard.title).data.length
      ∧ 4 < demoTitleCard.title.data.length)
    ∧ (sanitizeTitle demoTitleCard.title).data.length =
        demoTitleCard.title.data.length :=
  ⟨⟨by decide, by decide⟩,
    (filename_sanitize_spec demoTitleCard 4 (by decide) (by decide)).2.1⟩

/-- JSON values, restricted to the shapes `JSON.stringify(battleCard, null, 2)`
produces for a `BattleCardContent` (strings, arrays, and objects with
insertion-ordered fields).  The text layer — printing this tree to the
downloaded `.json` file and `JSON.parse`-ing it back to the same tree — is
the host JSON codec; the round-trip claim is settled at the tree level. -/
inductive Json where
  | str (s : String)
  | arr (elems : List Json)
  | obj (fields : List (String × Json))
deriving Repr

/-- The JSON object `JSON.stringify` produces for one objection. -/
def objectionToJson (o : Objection) : Json :=
  .obj [("objection", .str o.objection), ("response", .str o.response)]

/-- The JSON object `JSON.stringify` produces for one testimonial. -/
def testimonialToJson (t : Testimonial) : Json :=
  .obj [("company", .str t.company), ("quote", .str t.quote)]

/-- The raw-data export (`exportToJSON` in the export step):
`JSON.stringify(battleCard, null, 2)` serializes every field of the record,
in declaration order, with no transformation. -/
def battleCardToJson (b : BattleCardContent) : Json :=
  .obj [("id", .str b.id), ("title", .str b.title),
    ("overview", .str b.overview),
    ("differentiators", .arr (b.differentiators.map Json.str)),
    ("strengths", .arr (b.strengths.map Json.str)),
    ("weaknesses", .arr (b.weaknesses.map Json.str)),
    ("pricing", .str b.pricing),
    ("objections", .arr (b.objections.map objectionToJson)),
    ("questions", .arr (b.questions.map Json.str)),
    ("testimonials", .arr (b.testimonials.map testimonialToJson)),
    ("generatedAt", .str b.generatedAt)]

/-- Reading a parsed JSON value as a string. -/
def Json.asStr : Json → Option String
  | .str s => some s
  | _ => none

/-- Field access on a parsed JSON object (first binding wins, as in a parsed
JavaScript object). -/
def Json.getField : Json → String → Option Json
  | .obj fs, k => (fs.find? (fun f => f.1 == k)).map (fun f => f.2)
  | _, _ => none

/-- Structural all-or-nothing traversal: `some` of the mapped list when
every element reads successfully, `none` otherwise. -/
def traverseOption {α β : Type} (f : α → Option β) : List α → Option (List β)
  | [] => some []
  | a :: rest =>
    match f a with
    | none => none
    | some b =>
      match traverseOption f rest with
      | none => none
      | some bs => some (b :: bs)

/-- Reading a parsed JSON value as an array of strings. -/
def Json.asStrList : Json → Option (List String)
  | .arr es => traverseOption Json.asStr es
  | _ => none

/-- Field access followed by string reading. -/
def readStr (j : Json) (k : String) : Option String :=
  match j.getField k with
  | some v => v.asStr
  | none => none

/-- Field access followed by string-array reading. -/
def readStrList (j : Json) (k : String) : Option (List String) :=
  match j.getField k with
  | some v => v.asStrList
  | none => none

/-- Reading one parsed objection object. -/
def objectionFromJson (j : Json) : Option Objection :=
  match readStr j "objection" with
  | none => none
  | some q =>
  match readStr j "response" with
  | none => none
  | some r => some ⟨q, r⟩

/-- Reading one parsed testimonial object. -/
def testimonialFromJson (j : Json) : Option Testimonial :=
  match readStr j "company" with
  | none => none
  | some c =>
  match readStr j "quote" with
  | none => none
  | some q => some ⟨c, q⟩

/-- Reading a parsed JSON value as an array of objections. -/
def asObjectionList : Json → Option (List Objection)
  | .arr es => traverseOption objectionFromJson es
  | _ => none

/-- Reading a parsed JSON value as an array of testimonials. -/
def asTestimonialList : Json → Option (List Testimonial)
  | .arr es => traverseOption testimonialFromJson es
  | _ => none

/-- Field access followed by objection-array reading. -/
def readObjections (j : Json) (k : String) : Option (List Objection) :=
  match j.getField k with
  | some v => asObjectionList v
  | none => none

/-- Field access followed by testimonial-array reading. -/
def readTestimonials (j : Json) (k : String) : Option (List Testimonial) :=
  match j.getField k with
  | some v => asTestimonialList v
  | none => none

/-- Re-parsing the exported JSON as a battle-card record: field-by-field
structural reading of the parsed tree. -/
def battleCardFromJson (j : Json) : Option BattleCardContent :=
  match readStr j "id" with
  | none => none
  | some idv =>
  match readStr j "title" with
  | none => none
  | some title =>
  match readStr j "overview" with
  | none => none
  | some overview =>
  match readStrList j "differentiators" with
  | none => none
  | some differentiators =>
  match readStrList j "strengths" with
  | none => none
  | some strengths =>
  match readStrList j "weaknesses" with
  | none => none
  | some weaknesses =>
  match readStr j "pricing" with
  | none => none
  | some pricing =>
  match readObjections j "objections" with
  | none => none
  | some objections =>
  match readStrList j "questions" with
  | none => none
  | some questions =>
  match readTestimonials j "testimonials" with
  | none => none
  | some testimonials =>
  match readStr j "generatedAt" with
  | none => none
  | some generatedAt =>
    some ⟨idv, title, overview, differentiators, strengths, weaknesses,
      pricing, objections, questions, testimonials, generatedAt⟩

lemma strList_roundtrip (l : List String) :
    traverseOption Json.asStr (l.map Json.str) = some l := by
  induction l with
  | nil => rfl
  | cons s rest ih => simp [traverseOption, Json.asStr, ih]

lemma objection_roundtrip (o : Objection) :
    objectionFromJson (objectionToJson o) = some o := rfl

lemma testimonial_roundtrip (t : Testimonial) :
    testimonialFromJson (testimonialToJson t) = some t := rfl

lemma objList_roundtrip (l : List Objection) :
    traverseOption objectionFromJson (l.map objectionToJson) = some l := by
  induction l with
  | nil => rfl
  | cons o rest ih => simp [traverseOption, objection_roundtrip, ih]

lemma testimonialList_roundtrip (l : List Testimonial) :
    traverseOption testimonialFromJson (l.map testimonialToJson) = some l := by
  induction l with
  | nil => rfl
  | cons t rest ih => simp [traverseOption, testimonial_roundtrip, ih]

/-- C8: serializing any battle-card record via the raw-data JSON export and
re-parsing the result yields a structurally identical record — field-for-
field equality with the original. -/
theorem json_roundtrip (b : BattleCardContent) :
    battleCardFromJson (battleCardToJson b) = some b := by
  simp [battleCardFromJson, battleCardToJson, readStr, readStrList,
    readObjections, readTestimonials, Json.getField, Json.asStr,
    Json.asStrList, asObjectionList, asTestimonialList,
    strList_roundtrip, objList_roundtrip, testimonialList_roundtrip]

/-- A competitor entry of the wizard data (`{ url, name, … }`; only the
fields the generation batch reads). -/
structure Competitor where
  url : String
  name : String
deriving Repr, DecidableEq

/-- Step 1 of `generateBattleCardAsync`:
```
const competitorAnalyses: CompetitorAnalysis[] = [];
for (const competitor of data.competitors) {
  try {
    const analysis = await analyzeCompetitor(competitor.url);
    competitorAnalyses.push(analysis);
  } catch (err) {
    toast({ title: 'Warning', description: `Could not fully analyze
      ${competitor.name}. Continuing with available data.`, … });
  }
}
```
The per-item `await analyzeCompetitor(url)` outcome is abstracted as
`analyze : String → Except String α`; the loop returns the successful
analyses (in order) and the warning toasts issued (in order). -/
def analyzeLoop {α : Type} (analyze : String → Except String α) :
    List Competitor → List α × List String
  | [] => ([], [])
  | c :: rest =>
    let out := analyzeLoop analyze rest
    match analyze c.url with
    | .ok a => (a :: out.1, out.2)
    | .error _ =>
        (out.1,
          ("Could not fully analyze " ++ c.name ++
            ". Continuing with available data.") :: out.2)

/-- The batch gate and handoff to generation:
```
if (competitorAnalyses.length === 0) {
  throw new Error('Failed to analyze any competitors');
}
…
const generatedCard = await generateBattleCard({ competitors: competitorAnalyses, … });
```
The downstream generation call (documents, template, sections and the
network request) is abstracted as `gen`, applied to the successful
analyses. -/
def generateBattleCardAsyncModel {α β : Type}
    (analyze : String → Except String α) (gen : List α → Except String β)
    (competitors : List Competitor) : Except String β :=
  let analyses := (analyzeLoop analyze competitors).1
  if analyses.length = 0 then Except.error "Failed to analyze any competitors"
  else gen analyses

lemma analyzeLoop_successes {α : Type} (analyze : String → Except String α) :
    ∀ cs : List Competitor,
      (analyzeLoop analyze cs).1 =
        cs.filterMap (fun c => (analyze c.url).toOption) := by
  intro cs
  induction cs with
  | nil => rfl
  | cons c rest ih =>
      cases hc : analyze c.url with
      | ok a => simp [analyzeLoop, hc, Except.toOption, ih]
      | error e => simp [analyzeLoop, hc, Except.toOption, ih]

lemma analyzeLoop_warnings {α : Type} (analyze : String → Except String α) :
    ∀ cs : List Competitor,
      (analyzeLoop analyze cs).2.length =
        (cs.filter (fun c => !(analyze c.url).isOk)).length := by
  intro cs
  induction cs with
  | nil => rfl
  | cons c rest ih =>
      cases hc : analyze c.url with
      | ok a => simp [analyzeLoop, hc, Except.isOk, Except.toBool, ih]
      | error e => simp [analyzeLoop, hc, Except.isOk, Except.toBool, ih]

/-- C9: in the generation batch, every per-competitor analysis failure is
caught in-loop and recorded as one warning (second conjunct) without
removing any other competitor's success (first conjunct: the successes are
exactly the succeeding calls, in order); the analysis phase yields zero
successes exactly when every competitor's analysis failed (third conjunct);
in that case — and only then — the batch throws
"Failed to analyze any competitors" (fourth conjunct), while with at least
one success it proceeds to the generation call on the collected analyses
(fifth conjunct). -/
theorem generate_batch_spec {α β : Type} (analyze : String → Except String α)
    (gen : List α → Except String β) (cs : List Competitor) :
    (analyzeLoop analyze cs).1 =
        cs.filterMap (fun c => (analyze c.url).toOption)
    ∧ (analyzeLoop analyze cs).2.length =
        (cs.filter (fun c => !(analyze c.url).isOk)).length
    ∧ ((analyzeLoop analyze cs).1 = [] ↔
        ∀ c ∈ cs, (analyze c.url).isOk = false)
    ∧ ((analyzeLoop analyze cs).1 = [] →
        generateBattleCardAsyncModel analyze gen cs =
          Except.error "Failed to analyze any competitors")
    ∧ ((analyzeLoop analyze cs).1 ≠ [] →
        generateBattleCardAsyncModel analyze gen cs =
          gen (analyzeLoop analyze cs).1) := by
  refine ⟨analyzeLoop_successes analyze cs, analyzeLoop_warnings analyze cs,
    ?_, ?_, ?_⟩
  · rw [analyzeLoop_successes]
    rw [List.filterMap_eq_nil_iff]
    constructor
    · intro h c hc
      have := h c hc
      cases hca : analyze c.url with
      | ok a => rw [hca] at this; simp [Except.toOption] at this
      | error e => simp [Except.isOk, Except.toBool]
    · intro h c hc
      have := h c hc
      cases hca : analyze c.url with
      | ok a => rw [hca] at this; simp [Except.isOk, Except.toBool] at this
      | error e => simp [Except.toOption]
  · intro h
    simp [generateBattleCardAsyncModel, h]
  · intro h
    have hlen : (analyzeLoop analyze cs).1.length ≠ 0 := by
      intro h0
      exact h (List.length_eq_zero.mp h0)
    simp [generateBattleCardAsyncModel, hlen]

/-- Concrete batch instance for the witness: two competitors, the first
analysis fails, the second succeeds. -/
def demoCompetitors : List Competitor := [⟨"u1", "A"⟩, ⟨"u2", "B"⟩]

/-- Concrete analysis oracle for the witness. -/
def demoAnalyze (u : String) : Except String ℕ :=
  if u = "u1" then Except.error "network" else Except.ok 7

/-- Concrete generation oracle for the witness. -/
def demoGen (l : List ℕ) : Except String ℕ := Except.ok l.length

/-- Witness for `generate_batch_spec`: with one failing and one succeeding
competitor the batch proceeds to generation on the single success. -/
theorem generate_batch_spec_witness :
    ((analyzeLoop demoAnalyze demoCompetitors).1 ≠ [])
    ∧ generateBattleCardAsyncModel demoAnalyze demoGen demoCompetitors =
        demoGen (analyzeLoop demoAnalyze demoCompetitors).1 :=
  ⟨by decide,
    (generate_batch_spec demoAnalyze demoGen demoCompetitors).2.2.2.2
      (by decide)⟩

end Battlecard
